import Mathlib

/-!
Shallow embedding of the Vorbis audio parser of libavcodec
and verification of its specification.

Buffers are lists of bytes (`List Nat`, each entry intended `< 256`);
bit positions are counted MSB-first within each byte, matching the
`get_bits` bit reader used by the source.  The C `while` loops are
embedded as fuel-indexed structural recursions; the top level always
supplies fuel equal to the bit size of the buffer, which exceeds the
number of iterations either loop can perform, so the fuel-exhausted
branch returns exactly what the loop-guard-false branch returns.
-/

namespace VorbisParser

/-- Bit `i` (MSB-first within each byte) of the byte buffer, as 0 or 1.
Out-of-range reads yield 0 (never reached on guarded paths). -/
def getBitAt (buf : List Nat) (i : Nat) : Nat :=
  (buf.getD (i / 8) 0 >>> (7 - i % 8)) &&& 1

/-- `get_bits(gb, n)` at bit offset `start`: `n` bits read MSB-first. -/
def readBits (buf : List Nat) (start n : Nat) : Nat :=
  (List.range n).foldl (fun acc k => 2 * acc + getBitAt buf (start + k)) 0

/-- The 6-byte ASCII signature "vorbis" checked in both headers. -/
def vorbisSig : List Nat := [118, 111, 114, 98, 105, 115]

/-- Error taxonomy: one constructor per distinct error return site of the
source (the C code returns `AVERROR_INVALIDDATA` everywhere but logs a
distinct message at each site; the spec names each site). -/
inductive VorbisError where
  | headerTooShort
  | wrongPacketType
  | badSignature
  | missingFramingBit
  | invalidSetupHeader
  | invalidPacket
  | invalidMode
deriving DecidableEq, Repr

/-- `parse_id_header`: validates the identification header and returns the
two block sizes `(blocksize[0], blocksize[1])`. -/
def parse_id_header (buf : List Nat) : Except VorbisError (Nat × Nat) :=
  if buf.length < 30 then .error .headerTooShort
  else if buf.getD 0 0 ≠ 1 then .error .wrongPacketType
  else if (buf.drop 1).take 6 ≠ vorbisSig then .error .badSignature
  else if (buf.getD 29 0) &&& 1 = 0 then .error .missingFramingBit
  else .ok (1 <<< ((buf.getD 28 0) &&& 15), 1 <<< ((buf.getD 28 0) >>> 4))

/-- Fuel-indexed halving loop for `av_log2`; any fuel of at least `n`
gives the floor base-2 logarithm of `n`. -/
def av_log2Aux : Nat → Nat → Nat
  | _, 0 => 0
  | n, fuel + 1 => if 2 ≤ n then av_log2Aux (n / 2) fuel + 1 else 0

/-- `av_log2`: floor of the base-2 logarithm of `n`, with `av_log2 0 = 0`
(the semantics of the libavutil log2 table lookup). -/
def av_log2 (n : Nat) : Nat := av_log2Aux n n

/-- Equality instance for parser results. -/
instance exceptDecEq {ε α : Type} [DecidableEq ε] [DecidableEq α] :
    DecidableEq (Except ε α) := fun x y =>
  match x, y with
  | .ok a, .ok b =>
    if h : a = b then isTrue (congrArg Except.ok h)
    else isFalse fun hc => h (by injection hc)
  | .error a, .error b =>
    if h : a = b then isTrue (congrArg Except.error h)
    else isFalse fun hc => h (by injection hc)
  | .ok _, .error _ => isFalse fun hc => by injection hc
  | .error _, .ok _ => isFalse fun hc => by injection hc

/-- First `while` loop of `parse_setup_header`: scan forward one bit at a
time while more than 97 bits remain; on the first 1-bit, return
`get_bits_count` (the bit position just after it). `none` models the C
sentinel `got_framing_bit == 0`. -/
def findFramingBit (buf : List Nat) (size : Nat) : Nat → Nat → Option Nat
  | _, 0 => none
  | index, fuel + 1 =>
    if size - index > 97 then
      if getBitAt buf index = 1 then some (index + 1)
      else findFramingBit buf size (index + 1) fuel
    else none

/-- Second `while` loop of `parse_setup_header`: repeated mode-descriptor
pattern matching while at least 97 bits remain.  Each iteration reads an
8-bit field (stop if `> 63`), two 16-bit fields (stop if either nonzero,
with C short-circuit order), skips 1 bit, increments `mc` (stop once it
exceeds 64), then speculatively reads 6 bits from a scratch cursor and
records `mc` as the candidate count when `value + 1 = mc`.  Returns the
last recorded candidate (`none` models `got_mode_header == 0`). -/
def findModeTable (buf : List Nat) (size : Nat) :
    Nat → Nat → Option Nat → Nat → Option Nat
  | _, _, last, 0 => last
  | index, mc, last, fuel + 1 =>
    if size - index ≥ 97 then
      if readBits buf index 8 > 63 then last
      else if readBits buf (index + 8) 16 ≠ 0 then last
      else if readBits buf (index + 24) 16 ≠ 0 then last
      else if mc + 1 > 64 then last
      else
        findModeTable buf size (index + 41) (mc + 1)
          (if readBits buf (index + 41) 6 + 1 = mc + 1 then some (mc + 1) else last)
          fuel
    else last

/-- Final loop of `parse_setup_header`: starting at bit offset `index`
(the framing-bit position), for each mode from the highest index down,
skip 40 bits then read the 1-bit block-size selector.  The returned list
is in read order, i.e. the flag for mode `n-1` first. -/
def readModeFlags (buf : List Nat) : Nat → Nat → List Nat
  | _, 0 => []
  | index, n + 1 => getBitAt buf (index + 40) :: readModeFlags buf (index + 41) n

/-- `parse_setup_header`: validates the setup header, byte-reverses it,
scans for the framing bit, locates the mode table heuristically and
returns `(mode_count, mode_mask, mode_blocksize)` where `mode_blocksize`
lists the block size of each mode index `0 .. mode_count - 1`. -/
def parse_setup_header (blocksize : List Nat) (buf : List Nat) :
    Except VorbisError (Nat × Nat × List Nat) :=
  if buf.length < 7 then .error .headerTooShort
  else if buf.getD 0 0 ≠ 5 then .error .wrongPacketType
  else if (buf.drop 1).take 6 ≠ vorbisSig then .error .badSignature
  else
    match findFramingBit buf.reverse (8 * buf.length) 0 (8 * buf.length) with
    | none => .error .invalidSetupHeader
    | some fb =>
      match findModeTable buf.reverse (8 * buf.length) fb 0 none (8 * buf.length) with
      | none => .error .invalidSetupHeader
      | some mc =>
        .ok (mc, ((1 <<< (av_log2 (mc - 1) + 1)) - 1) <<< 1,
          (readModeFlags buf.reverse fb mc).reverse.map fun b => blocksize.getD b 0)

/-- `VorbisParseContext`: the per-stream parser state.  `mode_blocksize`
holds the entries `0 .. mode_count - 1` of the C 64-slot array (the only
ones the code ever writes or reads). -/
structure VorbisParseContext where
  extradata_parsed : Bool
  valid_extradata : Bool
  blocksize : List Nat
  previous_blocksize : Nat
  mode_blocksize : List Nat
  mode_count : Nat
  mode_mask : Nat
deriving DecidableEq, Repr

/-- The all-zero state a stream starts with. -/
def initContext : VorbisParseContext :=
  ⟨false, false, [0, 0], 0, [], 0, 0⟩

/-- The header-parsing branch of `vorbis_parse`: sets `extradata_parsed`,
then runs the identification and setup parsers on the split headers
(`headers = none` models `avpriv_split_xiph_headers` failing; the middle
header, a comment header, is never consumed).  On success it records the
results, sets `valid_extradata` and seeds `previous_blocksize` with the
block size of mode 0. -/
def parseHeaders (s : VorbisParseContext)
    (headers : Option (List Nat × List Nat × List Nat)) : VorbisParseContext :=
  let s1 := { s with extradata_parsed := true }
  match headers with
  | none => s1
  | some (h0, _, h2) =>
    match parse_id_header h0 with
    | .error _ => s1
    | .ok (b0, b1) =>
      let s2 := { s1 with blocksize := [b0, b1] }
      match parse_setup_header s2.blocksize h2 with
      | .error _ => s2
      | .ok (mc, mask, mbs) =>
        { s2 with valid_extradata := true, mode_count := mc, mode_mask := mask,
                  mode_blocksize := mbs, previous_blocksize := mbs.getD 0 0 }

/-- First block of `vorbis_parse` (lines 178-198 of the source): lazy
one-time header parsing, guarded by `extradata_parsed` and the presence
of non-empty extradata. -/
def headerPhase (s : VorbisParseContext) (extradata : List Nat)
    (splitHeaders : List Nat → Option (List Nat × List Nat × List Nat)) :
    VorbisParseContext :=
  if s.extradata_parsed = false ∧ extradata ≠ [] then
    parseHeaders s (splitHeaders extradata)
  else s

/-- Second block of `vorbis_parse` (lines 200-215 of the source): the
per-packet duration calculation, returning the updated state and the
caller-visible duration field (which the code only ever assigns on the
success path, so `dur` is passed through on every failure). -/
def packetPhase (s1 : VorbisParseContext) (dur : Nat) (buf : List Nat) :
    VorbisParseContext × Nat :=
  if s1.valid_extradata = true ∧ 0 < buf.length then
    if buf.getD 0 0 &&& 1 ≠ 0 then (s1, dur)
    else if s1.mode_count ≤ (buf.getD 0 0 &&& s1.mode_mask) >>> 1 then (s1, dur)
    else
      ({ s1 with previous_blocksize :=
           s1.mode_blocksize.getD ((buf.getD 0 0 &&& s1.mode_mask) >>> 1) 0 },
       (s1.previous_blocksize +
           s1.mode_blocksize.getD ((buf.getD 0 0 &&& s1.mode_mask) >>> 1) 0) >>> 2)
  else (s1, dur)

/-- `vorbis_parse`: one call of the parser entry point.  Inputs: the
state, the caller-visible duration field `dur` (`s1->duration`, which the
code only ever assigns, never clears), the extradata buffer (`[]` models
absent/empty extradata), the external Xiph-lacing splitter as an
unconstrained function, and the packet.  Output:
`(state, duration, poutbuf, poutbuf_size)`; the `end` label of the source
always sets the output buffer and size to the input ones. -/
def vorbis_parse (s : VorbisParseContext) (dur : Nat) (extradata : List Nat)
    (splitHeaders : List Nat → Option (List Nat × List Nat × List Nat))
    (buf : List Nat) : VorbisParseContext × Nat × List Nat × Nat :=
  ((packetPhase (headerPhase s extradata splitHeaders) dur buf).1,
   (packetPhase (headerPhase s extradata splitHeaders) dur buf).2,
   buf, buf.length)

/-- A sequence of `vorbis_parse` calls on one state, threading the state
and the duration field; each call supplies its own extradata, splitter
and packet. -/
def runCalls (s : VorbisParseContext) (dur : Nat) :
    List (List Nat × (List Nat → Option (List Nat × List Nat × List Nat)) × List Nat) →
    VorbisParseContext × Nat
  | [] => (s, dur)
  | (e, sp, b) :: rest =>
    runCalls (vorbis_parse s dur e sp b).1 (vorbis_parse s dur e sp b).2.1 rest

/-- Modelled from the spec (claim C1 as written): the variant of
`parse_setup_header` in which the mode-table scan proceeds forward
starting from the start of the reversed stream (bit offset 0), not from
the framing-bit position.  Identical to `parse_setup_header` in every
other respect. -/
def parse_setup_header_specC1 (blocksize : List Nat) (buf : List Nat) :
    Except VorbisError (Nat × Nat × List Nat) :=
  if buf.length < 7 then .error .headerTooShort
  else if buf.getD 0 0 ≠ 5 then .error .wrongPacketType
  else if (buf.drop 1).take 6 ≠ vorbisSig then .error .badSignature
  else
    match findFramingBit buf.reverse (8 * buf.length) 0 (8 * buf.length) with
    | none => .error .invalidSetupHeader
    | some fb =>
      match findModeTable buf.reverse (8 * buf.length) 0 0 none (8 * buf.length) with
      | none => .error .invalidSetupHeader
      | some mc =>
        .ok (mc, ((1 <<< (av_log2 (mc - 1) + 1)) - 1) <<< 1,
          (readModeFlags buf.reverse fb mc).reverse.map fun b => blocksize.getD b 0)

/-- Modelled from the spec (claim C1, amended): the tail of
`parse_setup_header` once a framing bit has been found at bit count `fb`:
the mode-table pattern-matching scan continues forward from `fb` — the
cursor position just after the framing bit, not the start of the reversed
stream — while at least 97 bits remain; the block-size selectors are then
read starting from the same position. -/
def setupFromFramingBit (bs buf : List Nat) (fb : Nat) :
    Except VorbisError (Nat × Nat × List Nat) :=
  match findModeTable buf.reverse (8 * buf.length) fb 0 none (8 * buf.length) with
  | none => .error .invalidSetupHeader
  | some mc =>
    .ok (mc, ((1 <<< (av_log2 (mc - 1) + 1)) - 1) <<< 1,
      (readModeFlags buf.reverse fb mc).reverse.map fun b => bs.getD b 0)

/-- An 18-byte setup header: after byte reversal its bitstream starts
`0 1`, so the framing scan stops at bit count 2; from there the mode
pattern matches once (mode count 1), while from bit offset 0 the first
8-bit read is 64 > 63 and the scan finds nothing. -/
def c1buf : List Nat := [5, 118, 111, 114, 98, 105, 115, 0, 0, 0, 0, 16, 0, 0, 0, 0, 0, 64]

/-- A state as produced by a successful header parse of a stream with
block sizes 64 and 512 and two modes (short then long); its mode mask is
the one the parser derives for two modes. -/
def c2state : VorbisParseContext := ⟨true, true, [64, 512], 64, [64, 512], 2, 2⟩

/-- A state as produced by a successful header parse with a single mode;
packets whose mode-index bit is set select mode 1, which is out of
range. -/
def c10state : VorbisParseContext := ⟨true, true, [64, 512], 64, [64], 1, 2⟩

/-- A 30-byte identification header: type 1, "vorbis", byte 28 = 0x68
(exponents 8 and 6), framing bit set. -/
def c4buf : List Nat := [1, 118, 111, 114, 98, 105, 115] ++ List.replicate 21 0 ++ [104, 1]

/-- The header-parsing branch is skipped entirely once
`extradata_parsed` is set. -/
theorem headerPhase_of_parsed (s : VorbisParseContext) (e : List Nat)
    (sp : List Nat → Option (List Nat × List Nat × List Nat))
    (hp : s.extradata_parsed = true) : headerPhase s e sp = s := by
  unfold headerPhase
  rw [if_neg (by simp [hp])]

/-- `parseHeaders` always sets `extradata_parsed`. -/
theorem parseHeaders_parsed (s : VorbisParseContext)
    (h : Option (List Nat × List Nat × List Nat)) :
    (parseHeaders s h).extradata_parsed = true := by
  simp only [parseHeaders]
  split
  · rfl
  · split
    · rfl
    · split
      · rfl
      · rfl

/-- `parseHeaders` never clears `valid_extradata`. -/
theorem parseHeaders_valid_mono (s : VorbisParseContext)
    (h : Option (List Nat × List Nat × List Nat))
    (hv : s.valid_extradata = true) : (parseHeaders s h).valid_extradata = true := by
  simp only [parseHeaders]
  split
  · exact hv
  · split
    · exact hv
    · split
      · exact hv
      · rfl

/-- After the header phase, either the parse was attempted
(`extradata_parsed` set) or the state is untouched. -/
theorem headerPhase_parsed_or_id (s : VorbisParseContext) (e : List Nat)
    (sp : List Nat → Option (List Nat × List Nat × List Nat)) :
    (headerPhase s e sp).extradata_parsed = true ∨ headerPhase s e sp = s := by
  unfold headerPhase
  split
  · exact Or.inl (parseHeaders_parsed _ _)
  · exact Or.inr rfl

/-- The header phase never clears `valid_extradata`. -/
theorem headerPhase_valid_mono (s : VorbisParseContext) (e : List Nat)
    (sp : List Nat → Option (List Nat × List Nat × List Nat))
    (hv : s.valid_extradata = true) : (headerPhase s e sp).valid_extradata = true := by
  unfold headerPhase
  split
  · exact parseHeaders_valid_mono _ _ hv
  · exact hv

/-- The header phase preserves the invariant that validity implies the
parse was attempted. -/
theorem headerPhase_inv (s : VorbisParseContext) (e : List Nat)
    (sp : List Nat → Option (List Nat × List Nat × List Nat))
    (hinv : s.valid_extradata = true → s.extradata_parsed = true)
    (hv : (headerPhase s e sp).valid_extradata = true) :
    (headerPhase s e sp).extradata_parsed = true := by
  rcases headerPhase_parsed_or_id s e sp with h | h
  · exact h
  · rw [h] at hv ⊢
    exact hinv hv

/-- The packet phase touches no field other than `previous_blocksize`. -/
theorem packetPhase_fields (s1 : VorbisParseContext) (dur : Nat) (buf : List Nat) :
    (packetPhase s1 dur buf).1.extradata_parsed = s1.extradata_parsed ∧
    (packetPhase s1 dur buf).1.valid_extradata = s1.valid_extradata ∧
    (packetPhase s1 dur buf).1.blocksize = s1.blocksize ∧
    (packetPhase s1 dur buf).1.mode_blocksize = s1.mode_blocksize ∧
    (packetPhase s1 dur buf).1.mode_count = s1.mode_count ∧
    (packetPhase s1 dur buf).1.mode_mask = s1.mode_mask := by
  unfold packetPhase
  split
  · split
    · exact ⟨rfl, rfl, rfl, rfl, rfl, rfl⟩
    · split
      · exact ⟨rfl, rfl, rfl, rfl, rfl, rfl⟩
      · exact ⟨rfl, rfl, rfl, rfl, rfl, rfl⟩
  · exact ⟨rfl, rfl, rfl, rfl, rfl, rfl⟩

/-- Once the structural checks pass and the framing scan returns `fb`,
the whole setup parse is `setupFromFramingBit` at `fb`. -/
theorem parse_setup_header_eq_fromFramingBit
    (bs buf : List Nat) (fb : Nat)
    (h7 : 7 ≤ buf.length) (htype : buf.getD 0 0 = 5)
    (hsig : (buf.drop 1).take 6 = vorbisSig)
    (hfb : findFramingBit buf.reverse (8 * buf.length) 0 (8 * buf.length) = some fb) :
    parse_setup_header bs buf = setupFromFramingBit bs buf fb := by
  unfold parse_setup_header
  rw [if_neg (by omega), if_neg (by rw [htype]; simp), if_neg (by rw [hsig]; simp), hfb]
  rfl

/-- Claim C1 (counterexample): on `c1buf` the code succeeds with one mode,
while the claimed behaviour — mode-table scan restarting from the start
of the reversed stream — fails to find any mode table. -/
theorem C1_counterexample :
    parse_setup_header [64, 512] c1buf = .ok (1, 2, [64]) ∧
    parse_setup_header_specC1 [64, 512] c1buf = .error .invalidSetupHeader := by
  exact ⟨by decide, by decide⟩

/-- Claim C1 (amended): after the framing-bit scan succeeds at bit count
`fb`, the mode-table pattern-matching loop proceeds forward from `fb` —
the position just after the framing bit, with the same cursor — not from
the start of the reversed stream, and runs while at least 97 bits remain:
the whole parse equals `setupFromFramingBit` at `fb`. -/
theorem C1_mode_scan_resumes_after_framing_bit
    (bs buf : List Nat) (fb : Nat)
    (h7 : 7 ≤ buf.length) (htype : buf.getD 0 0 = 5)
    (hsig : (buf.drop 1).take 6 = vorbisSig)
    (hfb : findFramingBit buf.reverse (8 * buf.length) 0 (8 * buf.length) = some fb) :
    parse_setup_header bs buf = setupFromFramingBit bs buf fb :=
  parse_setup_header_eq_fromFramingBit bs buf fb h7 htype hsig hfb

/-- Witness for the amended claim C1 at the concrete header `c1buf`,
whose framing bit is found at bit count 2. -/
theorem C1_amended_witness :
    parse_setup_header [64, 512] c1buf = setupFromFramingBit [64, 512] c1buf 2 :=
  C1_mode_scan_resumes_after_framing_bit [64, 512] c1buf 2
    (by decide) (by decide) (by decide) (by decide)

/-- Claim C2: for every call with `valid_extradata` true, a non-empty
packet whose first byte has bit 0 clear and whose extracted mode index is
below `mode_count`, the computed duration equals
`(previous_block_size + mode_block_size[mode]) >> 2` in exact integer
arithmetic, and afterwards `previous_block_size` equals
`mode_block_size[mode]`.  (`extradata_parsed = true` is the reachability
invariant accompanying `valid_extradata = true`; see C6.) -/
theorem C2_duration_and_state_update
    (s : VorbisParseContext) (dur : Nat) (e : List Nat)
    (sp : List Nat → Option (List Nat × List Nat × List Nat)) (buf : List Nat)
    (hp : s.extradata_parsed = true) (hv : s.valid_extradata = true)
    (hne : 0 < buf.length) (hres : buf.getD 0 0 &&& 1 = 0)
    (hmode : (buf.getD 0 0 &&& s.mode_mask) >>> 1 < s.mode_count) :
    (vorbis_parse s dur e sp buf).2.1 =
      (s.previous_blocksize +
        s.mode_blocksize.getD ((buf.getD 0 0 &&& s.mode_mask) >>> 1) 0) >>> 2 ∧
    (vorbis_parse s dur e sp buf).1.previous_blocksize =
      s.mode_blocksize.getD ((buf.getD 0 0 &&& s.mode_mask) >>> 1) 0 := by
  unfold vorbis_parse
  rw [headerPhase_of_parsed s e sp hp]
  unfold packetPhase
  rw [if_pos ⟨hv, hne⟩, if_neg (not_not_intro hres), if_neg (Nat.not_le.mpr hmode)]
  exact ⟨rfl, rfl⟩

/-- Witness for C2 at the end-to-end example of the spec: block sizes
`[64, 512]`, two modes, `previous_block_size = 64`, first byte 2 (mode 1,
reserved bit clear): duration 144, then `previous_block_size = 512`. -/
theorem C2_witness :
    (vorbis_parse c2state 0 [] (fun _ => none) [2]).2.1 = 144 ∧
    (vorbis_parse c2state 0 [] (fun _ => none) [2]).1.previous_blocksize = 512 := by
  have h := C2_duration_and_state_update c2state 0 [] (fun _ => none) [2]
    (by decide) (by decide) (by decide) (by decide) (by decide)
  exact ⟨h.1.trans (by decide), h.2.trans (by decide)⟩

/-- Claim C3: when the per-packet duration calculation fails — reserved
bit set, or extracted mode index at least `mode_count` — no state field
is mutated: the state after the call equals the state before. -/
theorem C3_packet_error_leaves_state
    (s : VorbisParseContext) (dur : Nat) (e : List Nat)
    (sp : List Nat → Option (List Nat × List Nat × List Nat)) (buf : List Nat)
    (hp : s.extradata_parsed = true) (hv : s.valid_extradata = true)
    (hne : 0 < buf.length)
    (herr : buf.getD 0 0 &&& 1 ≠ 0 ∨
      s.mode_count ≤ (buf.getD 0 0 &&& s.mode_mask) >>> 1) :
    (vorbis_parse s dur e sp buf).1 = s := by
  unfold vorbis_parse
  rw [headerPhase_of_parsed s e sp hp]
  unfold packetPhase
  rw [if_pos ⟨hv, hne⟩]
  rcases herr with h | h
  · rw [if_pos h]
  · by_cases h1 : buf.getD 0 0 &&& 1 ≠ 0
    · rw [if_pos h1]
    · rw [if_neg h1, if_pos h]

/-- Witness for C3: a packet whose first byte has bit 0 set leaves
`c2state` unchanged. -/
theorem C3_witness : (vorbis_parse c2state 0 [] (fun _ => none) [3]).1 = c2state :=
  C3_packet_error_leaves_state c2state 0 [] (fun _ => none) [3]
    (by decide) (by decide) (by decide) (Or.inl (by decide))

/-- Claim C7: on every exit path, the output packet pointer and size
equal the input buffer and its length; the packet bytes are passed
through unmodified. -/
theorem C7_packet_passthrough
    (s : VorbisParseContext) (dur : Nat) (e : List Nat)
    (sp : List Nat → Option (List Nat × List Nat × List Nat)) (buf : List Nat) :
    (vorbis_parse s dur e sp buf).2.2 = (buf, buf.length) := by
  unfold vorbis_parse
  rfl

/-- Claim C10: when a per-packet check fails, the caller-visible duration
field is not written at all: it retains the value it held before the
call. -/
theorem C10_duration_retained_on_error
    (s : VorbisParseContext) (dur : Nat) (e : List Nat)
    (sp : List Nat → Option (List Nat × List Nat × List Nat)) (buf : List Nat)
    (hp : s.extradata_parsed = true) (hv : s.valid_extradata = true)
    (hne : 0 < buf.length)
    (herr : buf.getD 0 0 &&& 1 ≠ 0 ∨
      s.mode_count ≤ (buf.getD 0 0 &&& s.mode_mask) >>> 1) :
    (vorbis_parse s dur e sp buf).2.1 = dur := by
  unfold vorbis_parse
  rw [headerPhase_of_parsed s e sp hp]
  unfold packetPhase
  rw [if_pos ⟨hv, hne⟩]
  rcases herr with h | h
  · rw [if_pos h]
  · by_cases h1 : buf.getD 0 0 &&& 1 ≠ 0
    · rw [if_pos h1]
    · rw [if_neg h1, if_pos h]

/-- Witness for C10: a packet selecting the out-of-range mode 1 of the
one-mode state `c10state` leaves the duration field at its prior
value 7. -/
theorem C10_witness : (vorbis_parse c10state 7 [] (fun _ => none) [2]).2.1 = 7 :=
  C10_duration_retained_on_error c10state 7 [] (fun _ => none) [2]
    (by decide) (by decide) (by decide) (Or.inr (by decide))

/-- Claim C4: every identification header of at least 30 bytes with
packet type 1, signature "vorbis" and the framing bit of byte 29 set is
accepted, yielding block sizes `1 <<< (byte28 &&& 0xF)` and
`1 <<< (byte28 >>> 4)` — the 4-bit exponents are not range-checked. -/
theorem C4_id_header_blocksizes (buf : List Nat)
    (hlen : 30 ≤ buf.length) (htype : buf.getD 0 0 = 1)
    (hsig : (buf.drop 1).take 6 = vorbisSig)
    (hframe : buf.getD 29 0 &&& 1 ≠ 0) :
    parse_id_header buf =
      .ok (1 <<< (buf.getD 28 0 &&& 15), 1 <<< (buf.getD 28 0 >>> 4)) := by
  unfold parse_id_header
  rw [if_neg (by omega), if_neg (by rw [htype]; simp), if_neg (by rw [hsig]; simp),
      if_neg hframe]

/-- Witness for C4: the 30-byte header `c4buf` (byte 28 = 0x68) yields
block sizes 256 and 64. -/
theorem C4_witness : parse_id_header c4buf = .ok (256, 64) :=
  (C4_id_header_blocksizes c4buf (by decide) (by decide) (by decide)
    (by decide)).trans (by decide)

/-- Claim C8: a buffer shorter than 30 bytes always yields the
too-short error from the identification parser, and one shorter than 7
bytes always yields it from the setup parser, before any header field is
read. -/
theorem C8_short_header_errors :
    (∀ buf : List Nat, buf.length < 30 →
      parse_id_header buf = .error .headerTooShort) ∧
    (∀ bs buf : List Nat, buf.length < 7 →
      parse_setup_header bs buf = .error .headerTooShort) := by
  constructor
  · intro buf h
    unfold parse_id_header
    rw [if_pos h]
  · intro bs buf h
    unfold parse_setup_header
    rw [if_pos h]

/-- Witness for C8 at the empty buffer. -/
theorem C8_witness :
    parse_id_header [] = .error .headerTooShort ∧
    parse_setup_header [64, 512] [] = .error .headerTooShort :=
  ⟨C8_short_header_errors.1 [] (by decide),
   C8_short_header_errors.2 [64, 512] [] (by decide)⟩

/-- The framing-bit scan finds nothing when the stream holds at most 97
bits: the guard demands strictly more than 97 bits remaining. -/
theorem findFramingBit_none_of_short (buf : List Nat) (size fuel : Nat)
    (h : size ≤ 97) : findFramingBit buf size 0 fuel = none := by
  cases fuel with
  | zero => rfl
  | succ f =>
    unfold findFramingBit
    rw [if_neg (by omega)]

/-- Claim C9: every setup buffer of 7 to 12 bytes that passes the
packet-type and signature checks fails with the invalid-setup-header
error: it holds at most 96 bits, so the framing-bit scan can never read
a bit. -/
theorem C9_short_setup_always_invalid (bs buf : List Nat)
    (h7 : 7 ≤ buf.length) (h12 : buf.length ≤ 12)
    (htype : buf.getD 0 0 = 5) (hsig : (buf.drop 1).take 6 = vorbisSig) :
    parse_setup_header bs buf = .error .invalidSetupHeader := by
  unfold parse_setup_header
  rw [if_neg (by omega), if_neg (by rw [htype]; simp), if_neg (by rw [hsig]; simp),
      findFramingBit_none_of_short buf.reverse (8 * buf.length) (8 * buf.length)
        (by omega)]

/-- Witness for C9 at the minimal 7-byte setup header. -/
theorem C9_witness :
    parse_setup_header [64, 512] [5, 118, 111, 114, 98, 105, 115] =
      .error .invalidSetupHeader :=
  C9_short_setup_always_invalid [64, 512] [5, 118, 111, 114, 98, 105, 115]
    (by decide) (by decide) (by decide) (by decide)

/-- With fuel at least `n`, the halving loop computes `Nat.log2`. -/
theorem av_log2Aux_eq_log2 (fuel : Nat) :
    ∀ n : Nat, n ≤ fuel → av_log2Aux n fuel = Nat.log2 n := by
  induction fuel with
  | zero =>
    intro n hn
    obtain rfl : n = 0 := Nat.le_zero.mp hn
    simp [av_log2Aux, Nat.log2]
  | succ f ih =>
    intro n hn
    unfold av_log2Aux
    by_cases h2 : 2 ≤ n
    · rw [if_pos h2, ih (n / 2) (by omega)]
      conv_rhs => rw [Nat.log2]
      rw [if_pos h2]
    · rw [if_neg h2]
      conv_rhs => rw [Nat.log2]
      rw [if_neg h2]

/-- The embedded `av_log2` is the floor base-2 logarithm (`Nat.log2`). -/
theorem av_log2_eq_log2 (n : Nat) : av_log2 n = Nat.log2 n :=
  av_log2Aux_eq_log2 n n (Nat.le_refl n)

/-- Any mode count recorded by the mode-table scan lies in `1 .. 64`:
a candidate is only recorded right after the counter is incremented, and
never once it exceeds 64. -/
theorem findModeTable_bounds (fuel : Nat) :
    ∀ (buf : List Nat) (size index mc : Nat) (last : Option Nat) (m : Nat),
      (∀ l, last = some l → 1 ≤ l ∧ l ≤ 64) →
      findModeTable buf size index mc last fuel = some m →
      1 ≤ m ∧ m ≤ 64 := by
  induction fuel with
  | zero =>
    intro buf size index mc last m hlast h
    exact hlast m h
  | succ f ih =>
    intro buf size index mc last m hlast h
    unfold findModeTable at h
    by_cases h1 : size - index ≥ 97
    case neg => rw [if_neg h1] at h; exact hlast m h
    rw [if_pos h1] at h
    by_cases h2 : readBits buf index 8 > 63
    case pos => rw [if_pos h2] at h; exact hlast m h
    rw [if_neg h2] at h
    by_cases h3 : readBits buf (index + 8) 16 ≠ 0
    case pos => rw [if_pos h3] at h; exact hlast m h
    rw [if_neg h3] at h
    by_cases h4 : readBits buf (index + 24) 16 ≠ 0
    case pos => rw [if_pos h4] at h; exact hlast m h
    rw [if_neg h4] at h
    by_cases h5 : mc + 1 > 64
    case pos => rw [if_pos h5] at h; exact hlast m h
    rw [if_neg h5] at h
    refine ih buf size (index + 41) (mc + 1) _ m ?_ h
    intro l hl
    by_cases h6 : readBits buf (index + 41) 6 + 1 = mc + 1
    · rw [if_pos h6] at hl
      injection hl with hl2
      omega
    · rw [if_neg h6] at hl
      exact hlast l hl

/-- Claim C5: every successful setup parse stores
`mode_mask = ((1 <<< bits) - 1) <<< 1` with
`bits = Nat.log2 (mode_count - 1) + 1` (so `bits = 1` when the count
is 1), the count lies in `1 .. 64`, and bit 0 is excluded from the
mask. -/
theorem C5_mode_mask_formula (bs buf : List Nat) (mc mask : Nat) (mbs : List Nat)
    (h : parse_setup_header bs buf = .ok (mc, mask, mbs)) :
    mask = ((1 <<< (Nat.log2 (mc - 1) + 1)) - 1) <<< 1 ∧
    1 ≤ mc ∧ mc ≤ 64 ∧ mask % 2 = 0 := by
  by_cases h1 : buf.length < 7
  case pos =>
    unfold parse_setup_header at h
    rw [if_pos h1] at h
    exact Except.noConfusion h
  by_cases h2 : buf.getD 0 0 ≠ 5
  case pos =>
    unfold parse_setup_header at h
    rw [if_neg h1, if_pos h2] at h
    exact Except.noConfusion h
  by_cases h3 : (buf.drop 1).take 6 ≠ vorbisSig
  case pos =>
    unfold parse_setup_header at h
    rw [if_neg h1, if_neg h2, if_pos h3] at h
    exact Except.noConfusion h
  cases hfb : findFramingBit buf.reverse (8 * buf.length) 0 (8 * buf.length) with
  | none =>
    unfold parse_setup_header at h
    rw [if_neg h1, if_neg h2, if_neg h3, hfb] at h
    exact Except.noConfusion h
  | some fb =>
    rw [parse_setup_header_eq_fromFramingBit bs buf fb (by omega)
      (not_ne_iff.mp h2) (not_ne_iff.mp h3) hfb] at h
    unfold setupFromFramingBit at h
    cases hmt : findModeTable buf.reverse (8 * buf.length) fb 0 none (8 * buf.length) with
    | none => rw [hmt] at h; exact Except.noConfusion h
    | some m =>
      rw [hmt] at h
      injection h with h4
      rw [Prod.mk.injEq] at h4
      obtain ⟨hm, h5⟩ := h4
      rw [Prod.mk.injEq] at h5
      obtain ⟨hmask, -⟩ := h5
      subst hm
      have hb := findModeTable_bounds (8 * buf.length) buf.reverse (8 * buf.length)
        fb 0 none m (fun l hl => Option.noConfusion hl) hmt
      refine ⟨?_, hb.1, hb.2, ?_⟩
      · rw [← hmask, av_log2_eq_log2]
      · rw [← hmask, Nat.shiftLeft_eq]
        omega

/-- Witness for C5 at the concrete setup header `c1buf`, which parses to
one mode with mask 2. -/
theorem C5_witness :
    2 = ((1 <<< (Nat.log2 (1 - 1) + 1)) - 1) <<< 1 ∧
    1 ≤ 1 ∧ 1 ≤ 64 ∧ 2 % 2 = 0 :=
  C5_mode_mask_formula [64, 512] c1buf 1 2 [64] (by decide)

/-- Claim C6: across every sequence of parse calls on one state (any
state satisfying the invariant that validity implies the parse was
attempted, which the all-zero initial state does), `extradata_parsed`
only ever goes from false to true and then stays true — header parsing
is attempted at most once — `valid_extradata` is set at most once and
only alongside or after `extradata_parsed`, and once an attempt has
ended without validity (`extradata_parsed` true, `valid_extradata`
false), validity stays false permanently. -/
theorem C6_state_machine
    (calls : List (List Nat × (List Nat → Option (List Nat × List Nat × List Nat)) × List Nat)) :
    ∀ (s : VorbisParseContext) (dur : Nat),
      (s.valid_extradata = true → s.extradata_parsed = true) →
      (((runCalls s dur calls).1.valid_extradata = true →
          (runCalls s dur calls).1.extradata_parsed = true) ∧
       (s.extradata_parsed = true →
          (runCalls s dur calls).1.extradata_parsed = true) ∧
       (s.valid_extradata = true →
          (runCalls s dur calls).1.valid_extradata = true) ∧
       (s.extradata_parsed = true → s.valid_extradata = false →
          (runCalls s dur calls).1.valid_extradata = false)) := by
  induction calls with
  | nil =>
    intro s dur hinv
    exact ⟨hinv, fun h => h, fun h => h, fun _ hf => hf⟩
  | cons c rest ih =>
    obtain ⟨e, sp, b⟩ := c
    intro s dur hinv
    have hfields := packetPhase_fields (headerPhase s e sp) dur b
    have step_inv : (vorbis_parse s dur e sp b).1.valid_extradata = true →
        (vorbis_parse s dur e sp b).1.extradata_parsed = true := by
      intro hv
      show (packetPhase (headerPhase s e sp) dur b).1.extradata_parsed = true
      rw [hfields.1]
      refine headerPhase_inv s e sp hinv ?_
      rw [← hfields.2.1]
      exact hv
    have step_parsed : s.extradata_parsed = true →
        (vorbis_parse s dur e sp b).1.extradata_parsed = true := by
      intro hp
      show (packetPhase (headerPhase s e sp) dur b).1.extradata_parsed = true
      rw [hfields.1, headerPhase_of_parsed s e sp hp]
      exact hp
    have step_valid : s.valid_extradata = true →
        (vorbis_parse s dur e sp b).1.valid_extradata = true := by
      intro hv
      show (packetPhase (headerPhase s e sp) dur b).1.valid_extradata = true
      rw [hfields.2.1]
      exact headerPhase_valid_mono s e sp hv
    have step_fail : s.extradata_parsed = true → s.valid_extradata = false →
        (vorbis_parse s dur e sp b).1.valid_extradata = false := by
      intro hp hf
      show (packetPhase (headerPhase s e sp) dur b).1.valid_extradata = false
      rw [hfields.2.1, headerPhase_of_parsed s e sp hp]
      exact hf
    obtain ⟨i1, i2, i3, i4⟩ :=
      ih (vorbis_parse s dur e sp b).1 (vorbis_parse s dur e sp b).2.1 step_inv
    exact ⟨i1, fun hp => i2 (step_parsed hp), fun hv => i3 (step_valid hv),
      fun hp hf => i4 (step_parsed hp) (step_fail hp hf)⟩

/-- Witness for C6: one call on the initial state, with no extradata and
one packet. -/
theorem C6_witness :
    ((runCalls initContext 0 [([], fun _ => none, [2])]).1.valid_extradata = true →
      (runCalls initContext 0 [([], fun _ => none, [2])]).1.extradata_parsed = true) ∧
    (initContext.extradata_parsed = true →
      (runCalls initContext 0 [([], fun _ => none, [2])]).1.extradata_parsed = true) ∧
    (initContext.valid_extradata = true →
      (runCalls initContext 0 [([], fun _ => none, [2])]).1.valid_extradata = true) ∧
    (initContext.extradata_parsed = true → initContext.valid_extradata = false →
      (runCalls initContext 0 [([], fun _ => none, [2])]).1.valid_extradata = false) :=
  C6_state_machine [([], fun _ => none, [2])] initContext 0 (by decide)

end VorbisParser
